import Mathlib

/-!
Verification development for the `mu-vue-utils` repository.

The TypeScript sources are shallowly embedded as Lean definitions:

* `RouterUtil.patchUrl`, `patchRouteR`, `patchRouteP` from
  `src/src/Composables/routerUtils.ts`;
* the per-binding synchronization logic of `UrlMirror.add` and
  `UrlMirror.createObject` from `src/unnamed/part_004`;
* the serializer registry of `UrlMirror.prepareDSCallbacks` from
  `src/unnamed/part_004`;
* the `Flash` notification queue from `src/src/Components/FlashMessage.vue`
  (the `flash.ts` utility embedded in that file);
* the entry checks of the legacy `useUrlMirror` composable from
  `src/unnamed/part_003`.

JavaScript URL-level raw values (`string | null | undefined` together with the
`number` values a caller may put in a patch record) are modelled by `Raw`;
arbitrary JavaScript values handled by serializers are modelled by `JsVal`,
with the host numeric type modelled by exact integers.  Host builtins
(`String(v)`, `parseInt`, `parseFloat`, `JSON.stringify`, `JSON.parse`) are
not repository code; they are modelled from the spec's description of the
formats, restricted to the value domains the repository exercises.
-/

/-- A raw URL-level value as read from `route.query[k]` / `route.params[k]`
or supplied to a patch record: JavaScript `undefined` (key absent), `null`,
a string, or a number.  Strict-equality comparisons (`!==`) in the source
become decidable equality here; in particular `null !== undefined`. -/
inductive Raw where
  | undef : Raw
  | null : Raw
  | str (s : String) : Raw
  | num (n : Int) : Raw
deriving DecidableEq, Repr

/-- A JavaScript object with string keys, as an association list in insertion
order (JavaScript objects preserve string-key insertion order). -/
abbrev StrMap (α : Type) := List (String × α)

/-- Property lookup `m[k]`: the value at the first entry with key `k`,
`none` when the key is absent. -/
def mapGet {α : Type} (m : StrMap α) (k : String) : Option α :=
  (m.find? (fun kv => kv.1 == k)).map (·.2)

/-- JavaScript object-spread `{...base, ...pat}`: keys of `base` (overridden
by `pat` where present, in `base`'s order) followed by the keys only in
`pat`, in `pat`'s order. -/
def spreadMap {α : Type} (base pat : StrMap α) : StrMap α :=
  base.map (fun kv =>
    match mapGet pat kv.1 with
    | some v => (kv.1, v)
    | none => kv)
  ++ pat.filter (fun kv => (mapGet base kv.1).isNone)

/-- JavaScript property assignment `m[k] = v`: replaces the value in place
when the key exists, otherwise appends the new key. -/
def objSet {α : Type} (m : StrMap α) (k : String) (v : α) : StrMap α :=
  if (mapGet m k).isSome then
    m.map (fun kv => if kv.1 == k then (kv.1, v) else kv)
  else
    m ++ [(k, v)]

/-- Reading `m[k]` where an absent key yields JavaScript `undefined`. -/
def rawGet (m : StrMap Raw) (k : String) : Raw :=
  (mapGet m k).getD Raw.undef

theorem mapGet_nil {α : Type} (k : String) : mapGet ([] : StrMap α) k = none := rfl

theorem mapGet_cons {α : Type} (kv : String × α) (m : StrMap α) (k : String) :
    mapGet (kv :: m) k = if kv.1 == k then some kv.2 else mapGet m k := by
  by_cases h : kv.1 == k <;> simp [mapGet, List.find?, h]

theorem mapGet_append {α : Type} (l1 l2 : StrMap α) (k : String) :
    mapGet (l1 ++ l2) k = (mapGet l1 k).or (mapGet l2 k) := by
  unfold mapGet
  rw [List.find?_append]
  cases l1.find? (fun kv => kv.1 == k) <;> simp

theorem mapGet_mapOverride {α : Type} (base pat : StrMap α) (k : String) :
    mapGet (base.map (fun kv =>
      match mapGet pat kv.1 with
      | some v => (kv.1, v)
      | none => kv)) k
      = (mapGet base k).map (fun v => (mapGet pat k).getD v) := by
  induction base with
  | nil => rfl
  | cons kv base ih =>
    by_cases hk : kv.1 = k
    · subst hk
      cases hp : mapGet pat kv.1 <;> simp [mapGet_cons, hp]
    · cases hp : mapGet pat kv.1 <;>
        simpa [mapGet_cons, hp, hk] using ih

theorem mapGet_filterNotIn {α : Type} (base l : StrMap α) (k : String) :
    mapGet (l.filter (fun kv => (mapGet base kv.1).isNone)) k =
      if (mapGet base k).isSome then none else mapGet l k := by
  induction l with
  | nil => simp [mapGet_nil]
  | cons kv l ih =>
    by_cases hk : kv.1 = k
    · subst hk
      cases hb : mapGet base kv.1 <;> simp [List.filter, mapGet_cons, hb, ih]
    · cases hb : mapGet base kv.1 <;> simp [List.filter, mapGet_cons, hb, hk, ih]

theorem spreadMap_get {α : Type} (base pat : StrMap α) (k : String) :
    mapGet (spreadMap base pat) k =
      ((mapGet pat k).or (mapGet base k)) := by
  unfold spreadMap
  rw [mapGet_append, mapGet_mapOverride, mapGet_filterNotIn]
  cases mapGet base k <;> cases mapGet pat k <;> simp

theorem objSet_get {α : Type} (m : StrMap α) (k : String) (v : α) :
    mapGet (objSet m k v) k = some v := by
  unfold objSet
  by_cases h : (mapGet m k).isSome
  · simp only [h, if_true]
    induction m with
    | nil => simp [mapGet] at h
    | cons kv m ih =>
      by_cases hk : kv.1 = k
      · subst hk; simp [mapGet_cons]
      · have h' : (mapGet m k).isSome := by
          simpa [mapGet_cons, hk] using h
        simpa [mapGet_cons, hk] using ih h'
  · rw [if_neg h, mapGet_append]
    have hnone : mapGet m k = none := by
      cases hm : mapGet m k
      · rfl
      · rw [hm] at h; simp at h
    simp [hnone, mapGet_cons]

/-- The router's current location object `{ name, query, params, ... }`.
`extra` collects every other own property of the route object; the object
spread `{...this.route, ...}` in `patchUrl` copies them all unchanged. -/
structure RouteLoc where
  name : Option String
  query : StrMap Raw
  params : StrMap Raw
  extra : StrMap Raw
deriving Repr

/-- A query/params argument of `patchUrl`: either the literal `false`
(clear everything) or a patch record. -/
inductive QArg where
  | clear : QArg
  | patch (m : StrMap Raw) : QArg

namespace RouterUtil

/-- From `src/src/Composables/routerUtils.ts` lines 38-59, `patchUrl`:
builds `{...this.route, name: name ?? this.route.name, query: query !== false
? {...this.route.query, ...query} : {}, params: params !== false ?
{...this.route.params, ...params} : {}}`. -/
def patchUrl (route : RouteLoc) (query : QArg) (params : QArg)
    (name : Option String) : RouteLoc :=
  { name := match name with
      | some s => some s
      | none => route.name
    query := match query with
      | QArg.clear => []
      | QArg.patch m => spreadMap route.query m
    params := match params with
      | QArg.clear => []
      | QArg.patch m => spreadMap route.params m
    extra := route.extra }

/-- A history-navigation kind: `router.push` or `router.replace`. -/
inductive NavKind where
  | push : NavKind
  | replace : NavKind
deriving DecidableEq, Repr

/-- One call made to the router: which method and with what target. -/
structure NavCall where
  kind : NavKind
  target : RouteLoc

/-- From `routerUtils.ts` lines 61-63, `patchRouteR`: the list of router
calls the method makes (its body is the single statement
`this.router.replace(this.patchUrl(query, params))`). -/
def patchRouteRCalls (route : RouteLoc) (query params : StrMap Raw) :
    List NavCall :=
  [⟨NavKind.replace, patchUrl route (QArg.patch query) (QArg.patch params) none⟩]

/-- From `routerUtils.ts` lines 65-67, `patchRouteP`: the single
`this.router.push(this.patchUrl(query, params))` call. -/
def patchRoutePCalls (route : RouteLoc) (query params : StrMap Raw) :
    List NavCall :=
  [⟨NavKind.push, patchUrl route (QArg.patch query) (QArg.patch params) none⟩]

/-- The caller-visible result of `patchRouteR`: the JavaScript method body
invokes `this.router.replace(...)` and discards the promise it returns, so
the method returns `undefined` whatever the router reports.
`replaceImpl` models the router's `replace`, returning success or a
navigation failure. -/
def patchRouteRRun (replaceImpl : RouteLoc → Except String Unit)
    (route : RouteLoc) (query params : StrMap Raw) : Unit :=
  let _ := replaceImpl (patchUrl route (QArg.patch query) (QArg.patch params) none)
  ()

/-- The caller-visible result of `patchRouteP`, likewise discarding the
promise returned by `this.router.push(...)`. -/
def patchRoutePRun (pushImpl : RouteLoc → Except String Unit)
    (route : RouteLoc) (query params : StrMap Raw) : Unit :=
  let _ := pushImpl (patchUrl route (QArg.patch query) (QArg.patch params) none)
  ()

end RouterUtil

/-- A JavaScript value as handled by the mirror's serializers and bound
reactive variables.  The host numeric type is modelled by exact integers
(`vnum`), with `vnan` for the `NaN` sentinel; `varr`/`vobj` model arrays
and plain objects (fields in insertion order). -/
inductive JsVal where
  | vundef : JsVal
  | vnull : JsVal
  | vbool (b : Bool) : JsVal
  | vnum (n : Int) : JsVal
  | vnan : JsVal
  | vstr (s : String) : JsVal
  | varr (elems : List JsVal) : JsVal
  | vobj (fields : List (String × JsVal)) : JsVal

/-- A resolved serializer/deserializer pair (the source's `SerializerDef`):
`serializer : (value: any) => string|null` becomes `JsVal → Raw` (always
producing `Raw.str` or `Raw.null` for well-typed pairs), and
`deserializer : (value: string|null|undefined) => any` becomes
`Raw → JsVal`. -/
structure DS where
  serializer : JsVal → Raw
  deserializer : Raw → JsVal

/-- The `paramPr` marker (source field `UrlMirror.paramPr` ++ `efix`,
public, default `'@'`): a bound name starting with it is classified as a
path parameter. -/
def paramMark : String := "@"

/-- Literal list-level check that `pref` is an initial run of `cs`
(modelling `String.startsWith` on the underlying characters). -/
def leadMatch : List Char → List Char → Bool
  | [], _ => true
  | _ :: _, [] => false
  | p :: ps, c :: cs => p == c && leadMatch ps cs

/-- From `src/unnamed/part_004` line 98: the field string
`propName.startsWith(this.paramPr…) ? 'param' : 'query'`.  Note the value
is the literal string `'param'` — singular — while the route object's
property is `params`. -/
def fieldStringOf (propName : String) : String :=
  if leadMatch paramMark.data propName.data then "param" else "query"

/-- From `src/unnamed/part_004` line 99: strip the marker to get the URL
key (`propName.substring(this.paramPr….length)`) for `param` fields;
`query` fields use the name unchanged. -/
def urlKeyOf (propName : String) : String :=
  if leadMatch paramMark.data propName.data then
    String.mk (propName.data.drop paramMark.data.length)
  else propName

/-- JavaScript property access `route[field]` for the map-valued route
properties: the route object `{name, query, params, ...}` has `query` and
`params`; any other key — in particular the field string `'param'` that
the mirror computes at line 98 — is absent and reads as `undefined`
(`none`). -/
def routeIndex (r : RouteLoc) : String → Option (StrMap Raw)
  | "query" => some r.query
  | "params" => some r.params
  | _ => none

/-- The two-step read `ru.route[field][key]` as the source performs it
(part_004 lines 102, 106, 148, 274, 319): when `route[field]` is
`undefined` the inner index throws a TypeError, modelled as
`Except.error`. -/
def routeRead (r : RouteLoc) (field key : String) : Except String Raw :=
  match routeIndex r field with
  | some m => Except.ok (rawGet m key)
  | none => Except.error "TypeError"

/-- One navigation request issued by a binding: the patch method together
with the one-key query and params patch records passed to
`ru.patchRouteR` / `ru.patchRouteP`. -/
structure NavReq where
  method : RouterUtil.NavKind
  query : StrMap Raw
  params : StrMap Raw

/-- The location the router ends up at once it performs a binding's
navigation request: both `patchRouteR` and `patchRouteP` navigate to
`patchUrl(query, params)` (they differ only in history handling). -/
def applyNav (r : RouteLoc) (nav : NavReq) : RouteLoc :=
  RouterUtil.patchUrl r (QArg.patch nav.query) (QArg.patch nav.params) none

namespace UrlMirror

/-- From `src/unnamed/part_004` lines 105-115, the URL→value watcher body
of `add`: if the newly observed raw value differs (`!==`) from
`lastUrlValue`, the deserialized value is assigned to the bound variable
(`some v`); otherwise no assignment happens (`none`). -/
def addUrlWatcher (ds : DS) (lastUrlValue newUrlValue : Raw) : Option JsVal :=
  if newUrlValue ≠ lastUrlValue then some (ds.deserializer newUrlValue)
  else none

/-- From `src/unnamed/part_004` lines 118-145, the value→URL watcher body
of `add`: serializes the variable's value, records the raw result as the
new `lastUrlValue` (first component, assigned before the navigation call in
the source), and issues one `patchRouteR`/`patchRouteP` navigation whose
single-key patch record targets the binding's field under the stripped
URL key. -/
def addValueWatcher (ds : DS) (field : String) (urlPropName : String)
    (patchMethod : RouterUtil.NavKind) (value : JsVal) : Raw × NavReq :=
  let urlValue := ds.serializer value
  (urlValue,
    { method := patchMethod
      query := if field = "query" then [(urlPropName, urlValue)] else []
      params := if field = "param" then [(urlPropName, urlValue)] else [] })

/-- Result of one initial reconciliation: either the local value is
assigned from the URL, or a navigation writes the local value to the URL,
or nothing happens. -/
inductive InitResult where
  | assign (v : JsVal) : InitResult
  | write (nav : NavReq) : InitResult
  | nothing : InitResult

/-- From `src/unnamed/part_004` lines 147-161, the initial synchronization
of `add`, over the already-resolved `route[field]` map `m` (reaching these
lines presupposes the line-102 read succeeded, which only the `'query'`
field string allows): if the raw value for the key is not `undefined`, the
deserialized raw value is assigned to the variable; otherwise the
variable's value is serialized and, when the result differs (`!==`) from
the (undefined) raw value, written via `patchRouteR` — note the patch
record uses the unstripped `propName`, unlike the watcher path. -/
def addInitialSync (ds : DS) (field propName urlPropName : String)
    (m : StrMap Raw) (currentValue : JsVal) : InitResult :=
  if rawGet m urlPropName ≠ Raw.undef then
    InitResult.assign (ds.deserializer (rawGet m urlPropName))
  else if ds.serializer currentValue ≠ rawGet m urlPropName then
    InitResult.write
      { method := RouterUtil.NavKind.replace
        query := if field = "query" then [(propName, ds.serializer currentValue)] else []
        params := if field = "param" then [(propName, ds.serializer currentValue)] else [] }
  else InitResult.nothing

/-- From `src/unnamed/part_004` lines 273-282, the URL→value watcher body
of `createObject`: compares the observed raw value against
`lastUrlValues[propName]` (an absent entry reads as `undefined`) and
assigns the deserialized value only on mismatch. -/
def coUrlWatcher (ds : DS) (lastUrlValues : StrMap Raw) (propName : String)
    (newUrlValue : Raw) : Option JsVal :=
  if newUrlValue ≠ rawGet lastUrlValues propName then
    some (ds.deserializer newUrlValue)
  else none

/-- From `src/unnamed/part_004` lines 285-316, the value→URL watcher body
of `createObject`: serializes the new property value, stores the raw result
into `lastUrlValues[propName]` (before the navigation call in the source),
resolves the patch method (which may be a per-field resolver function), and
issues one single-key navigation under the stripped URL key. -/
def coValueWatcher (ds : DS) (field : String) (propName urlPropName : String)
    (lastUrlValues : StrMap Raw)
    (patchMethod : String → JsVal → RouterUtil.NavKind)
    (newPropValue : JsVal) : StrMap Raw × NavReq :=
  let urlValue := ds.serializer newPropValue
  (objSet lastUrlValues propName urlValue,
    { method := patchMethod propName newPropValue
      query := if field = "query" then [(urlPropName, urlValue)] else []
      params := if field = "param" then [(urlPropName, urlValue)] else [] })

/-- Outcome of `createObject`'s per-property initial synchronization:
the property's resulting value, an optional navigation, and the updated
`lastUrlValues` record. -/
structure CoInitOut where
  value : JsVal
  nav : Option NavReq
  lastUrl : StrMap Raw

/-- From `src/unnamed/part_004` lines 269-270 and 318-339, the initial
synchronization of `createObject`, over the already-resolved
`route[field]` map `m` (reaching line 318 presupposes the eager watch
getter of line 274 did not throw, which only the `'query'` field string
allows): the property starts as `deserializer(undefined)`; if the raw
value is neither `undefined` nor `null` it wins (deserialized into the
property, raw value recorded in `lastUrlValues`); otherwise the default is
serialized and written via `patchRouteR` only when the result is not
`null` (recording it in `lastUrlValues`). -/
def coInitialSync (ds : DS) (field propName urlPropName : String)
    (m : StrMap Raw) (lastUrlValues : StrMap Raw) : CoInitOut :=
  if rawGet m urlPropName ≠ Raw.undef ∧ rawGet m urlPropName ≠ Raw.null then
    { value := ds.deserializer (rawGet m urlPropName)
      nav := none
      lastUrl := objSet lastUrlValues propName (rawGet m urlPropName) }
  else if ds.serializer (ds.deserializer Raw.undef) ≠ Raw.null then
    { value := ds.deserializer Raw.undef
      nav := some
        { method := RouterUtil.NavKind.replace
          query := if field = "query"
            then [(urlPropName, ds.serializer (ds.deserializer Raw.undef))] else []
          params := if field = "param"
            then [(urlPropName, ds.serializer (ds.deserializer Raw.undef))] else [] }
      lastUrl := objSet lastUrlValues propName
        (ds.serializer (ds.deserializer Raw.undef)) }
  else
    { value := ds.deserializer Raw.undef, nav := none, lastUrl := lastUrlValues }

/-- From `src/unnamed/part_004` lines 97-162, the per-binding setup of
`add` for one `(propName, variable)` pair: line 102 performs the first
read `ru.route[field][urlPropName]`; for a `'@'`-prefixed name the field
string is `'param'`, `ru.route['param']` is `undefined` (the route has
`params`, plural), and the read throws a TypeError before either watcher
is registered or any reconciliation runs.  Otherwise (`'query'`) the
watchers are registered (their bodies are `addUrlWatcher` and
`addValueWatcher`) and the initial synchronization of lines 147-161 runs;
the result carries the recorded `lastUrlValue` and the reconciliation
outcome. -/
def addBindingSetup (ds : DS) (propName : String) (r : RouteLoc)
    (currentValue : JsVal) : Except String (Raw × InitResult) :=
  match routeIndex r (fieldStringOf propName) with
  | none => Except.error "TypeError"
  | some m =>
    Except.ok (rawGet m (urlKeyOf propName),
      addInitialSync ds (fieldStringOf propName) propName (urlKeyOf propName)
        m currentValue)

/-- From `src/unnamed/part_004` lines 263-339, the per-property setup of
`createObject`: after the default assignment of line 270, the watch
registered at line 273 eagerly evaluates its getter
`() => ru.route[field][urlPropName]` — which throws a TypeError for a
`'@'`-prefixed property, since `ru.route['param']` is `undefined` — so no
watcher survives and no reconciliation runs; for `'query'` properties the
initial synchronization of lines 318-339 runs. -/
def coBindingSetup (ds : DS) (propName : String) (r : RouteLoc)
    (lastUrlValues : StrMap Raw) : Except String CoInitOut :=
  match routeIndex r (fieldStringOf propName) with
  | none => Except.error "TypeError"
  | some m =>
    Except.ok (coInitialSync ds (fieldStringOf propName) propName
      (urlKeyOf propName) m lastUrlValues)

/-- From `src/unnamed/part_004` lines 82-86, the entry of `UrlMirror.add`:
when `queryParam` is a bare string and `variable` is `null`, no error is
raised — `singleVar` is set and a fresh `ref(null)` is created and used as
the bound variable (first component: `singleVar`; second: the value of the
variable that will be bound).  In every case the call proceeds. -/
def addEntrySetup (queryParamIsString : Bool) (varArg : Option JsVal) :
    Except String (Bool × Option JsVal) :=
  if queryParamIsString && varArg.isNone then
    Except.ok (true, some JsVal.vnull)
  else
    Except.ok (false, varArg)

end UrlMirror

/-- From `src/unnamed/part_003` line 11, the entry of the legacy
function-form `useUrlMirror`: a bare string `queryParam` with `variable`
still `null` throws `Error('variable must be Ref')`. -/
def legacyUseUrlMirrorEntry (queryParamIsString : Bool)
    (varArg : Option JsVal) : Except String Unit :=
  if queryParamIsString && varArg.isNone then
    Except.error "variable must be Ref"
  else
    Except.ok ()

/-- State of the `Flash` singleton from
`src/src/Components/FlashMessage.vue` (`flash.ts`).  `κ` is the type of
delivery callbacks; since callbacks are opaque host functions, delivery is
recorded as a trace: `delivered` lists, in order, each `(callback, type,
message)` invocation of `this.addCallback(type, message)`. -/
structure FlashState (κ : Type) where
  addCallback : Option κ
  buffer : List (String × String)
  delivered : List (κ × String × String)

namespace Flash

/-- From `flash.ts` (`Flash.add`): with a registered callback the message
is delivered synchronously; otherwise it is appended to the buffer. -/
def add {κ : Type} (s : FlashState κ) (type message : String) : FlashState κ :=
  match s.addCallback with
  | some cb => { s with delivered := s.delivered ++ [(cb, type, message)] }
  | none => { s with buffer := s.buffer ++ [(type, message)] }

/-- From `flash.ts` (`Flash.registerAdd`): sets `addCallback`, then
iterates `this.buffer` in order calling `this.add(type, message)` for each
entry.  The buffer list is not modified by the loop (each `add` call sees
the callback set), and it is never cleared. -/
def registerAdd {κ : Type} (s : FlashState κ) (cb : κ) : FlashState κ :=
  s.buffer.foldl (fun acc tm => add acc tm.1 tm.2)
    { s with addCallback := some cb }

/-- Sequence of `flash.add(type, message)` calls. -/
def addAll {κ : Type} (s : FlashState κ) (msgs : List (String × String)) :
    FlashState κ :=
  msgs.foldl (fun acc tm => add acc tm.1 tm.2) s

/-- The pristine singleton state: `addCallback` unset, empty buffer. -/
def initState (κ : Type) : FlashState κ :=
  { addCallback := none, buffer := [], delivered := [] }

theorem add_some {κ : Type} (s : FlashState κ) (cb : κ)
    (h : s.addCallback = some cb) (t m : String) :
    add s t m = { s with delivered := s.delivered ++ [(cb, t, m)] } := by
  unfold add
  rw [h]

theorem foldl_add_some {κ : Type} (buf : List (String × String))
    (s : FlashState κ) (cb : κ) (h : s.addCallback = some cb) :
    buf.foldl (fun acc tm => add acc tm.1 tm.2) s =
      { s with delivered :=
          s.delivered ++ buf.map (fun tm => (cb, tm.1, tm.2)) } := by
  induction buf generalizing s with
  | nil => simp
  | cons tm buf ih =>
    rw [List.foldl_cons, add_some s cb h]
    rw [ih _ (by simp [h])]
    simp

theorem registerAdd_spec {κ : Type} (s : FlashState κ) (cb : κ) :
    registerAdd s cb =
      { addCallback := some cb
        buffer := s.buffer
        delivered := s.delivered ++ s.buffer.map (fun tm => (cb, tm.1, tm.2)) } := by
  unfold registerAdd
  rw [foldl_add_some _ _ cb rfl]

theorem addAll_none {κ : Type} (msgs : List (String × String))
    (buf : List (String × String)) (del : List (κ × String × String)) :
    addAll ⟨none, buf, del⟩ msgs = ⟨none, buf ++ msgs, del⟩ := by
  induction msgs generalizing buf with
  | nil => simp [addAll]
  | cons tm msgs ih =>
    show addAll (add ⟨none, buf, del⟩ tm.1 tm.2) msgs = _
    rw [show add (⟨none, buf, del⟩ : FlashState κ) tm.1 tm.2
        = ⟨none, buf ++ [(tm.1, tm.2)], del⟩ from rfl]
    rw [ih]
    simp

end Flash

/-- The decimal digit character for `n < 10`. -/
def digitChar (n : Nat) : Char := Char.ofNat (48 + n)

/-- Decimal digits of a natural number, most significant first — the model
of the host's `Number.prototype.toString` on non-negative integral values
(plain decimal notation, as produced for every magnitude below `1e21`). -/
def natChars (n : Nat) : List Char :=
  if _h : n < 10 then [digitChar n]
  else natChars (n / 10) ++ [digitChar (n % 10)]
termination_by n
decreasing_by exact Nat.div_lt_self (by omega) (by omega)

/-- Modelled from the spec: the host's decimal rendering of an integral
number value (`v.toString()`), with a leading `-` for negatives. -/
def intChars (n : Int) : List Char :=
  if n < 0 then '-' :: natChars (-n).toNat else natChars n.toNat

/-- String form of `intChars`. -/
def intToString (n : Int) : String := String.mk (intChars n)

theorem digitChar_toNat : ∀ n < 10, (digitChar n).toNat = 48 + n := by decide

theorem digitChar_isDigit : ∀ n < 10, (digitChar n).isDigit = true := by decide

theorem natChars_ne_nil (n : Nat) : natChars n ≠ [] := by
  unfold natChars
  split
  · simp
  · simp

theorem natChars_digits (n : Nat) : ∀ c ∈ natChars n, c.isDigit = true := by
  induction n using Nat.strong_induction_on with
  | _ n ih =>
    unfold natChars
    split
    · intro c hc
      rw [List.mem_singleton] at hc
      subst hc
      exact digitChar_isDigit n (by omega)
    · intro c hc
      rw [List.mem_append] at hc
      rcases hc with hc | hc
      · exact ih (n / 10) (Nat.div_lt_self (by omega) (by omega)) c hc
      · rw [List.mem_singleton] at hc
        subst hc
        exact digitChar_isDigit _ (Nat.mod_lt _ (by omega))

/-- Reading decimal digits back with an accumulator, as done by a
left-to-right string-to-number parser. -/
def digitsVal (ds : List Char) : Nat :=
  ds.foldl (fun a c => 10 * a + (c.toNat - 48)) 0

theorem digitsVal_aux (n : Nat) :
    ∀ a : Nat, (natChars n).foldl (fun a c => 10 * a + (c.toNat - 48)) a
      = a * 10 ^ (natChars n).length + n := by
  induction n using Nat.strong_induction_on with
  | _ n ih =>
    intro a
    unfold natChars
    split
    case isTrue h =>
      simp [digitChar_toNat n h]
      ring
    case isFalse h =>
      rw [List.foldl_append]
      rw [ih (n / 10) (Nat.div_lt_self (by omega) (by omega)) a]
      simp [digitChar_toNat (n % 10) (Nat.mod_lt _ (by omega))]
      rw [Nat.pow_succ]
      have := Nat.div_add_mod n 10
      ring_nf
      omega

theorem digitsVal_natChars (n : Nat) : digitsVal (natChars n) = n := by
  have := digitsVal_aux n 0
  simpa [digitsVal] using this

/-- Whether a character list does not begin with a decimal digit (so a
greedy digit scan stops exactly at its start). -/
def noDigitHead : List Char → Bool
  | [] => true
  | c :: _ => !c.isDigit

/-- Greedy scan of leading decimal digits, returning them and the rest. -/
def grabDigits : List Char → List Char × List Char
  | [] => ([], [])
  | c :: r =>
    if c.isDigit then
      let p := grabDigits r
      (c :: p.1, p.2)
    else ([], c :: r)

theorem grabDigits_append (ds rest : List Char)
    (hds : ∀ c ∈ ds, c.isDigit = true) (hrest : noDigitHead rest = true) :
    grabDigits (ds ++ rest) = (ds, rest) := by
  induction ds with
  | nil =>
    cases rest with
    | nil => rfl
    | cons c r =>
      have : c.isDigit = false := by simpa [noDigitHead] using hrest
      simp [grabDigits, this]
  | cons c ds ih =>
    have hc : c.isDigit = true := hds c (by simp)
    have ih' := ih (fun c hc' => hds c (by simp [hc']))
    simp [grabDigits, hc, ih']

/-- Lowercase hexadecimal digit character for `n < 16`. -/
def hexDigitChar (n : Nat) : Char :=
  if n < 10 then Char.ofNat (48 + n) else Char.ofNat (87 + n)

/-- Numeric value of a hexadecimal digit character (0 for non-hex input). -/
def hexVal (c : Char) : Nat :=
  if 48 ≤ c.toNat ∧ c.toNat ≤ 57 then c.toNat - 48
  else if 97 ≤ c.toNat ∧ c.toNat ≤ 102 then c.toNat - 87
  else if 65 ≤ c.toNat ∧ c.toNat ≤ 70 then c.toNat - 55
  else 0

theorem hexVal_hexDigitChar : ∀ n < 16, hexVal (hexDigitChar n) = n := by decide

/-- JSON string-character escaping as performed by the host's
`JSON.stringify`: quote and backslash get two-character escapes, the named
control characters get their short escapes, other control characters get
`\u00xx`, and everything else is emitted verbatim. -/
def escChar (c : Char) : List Char :=
  if c = '"' then ['\\', '"']
  else if c = '\\' then ['\\', '\\']
  else if c = Char.ofNat 8 then ['\\', 'b']
  else if c = Char.ofNat 9 then ['\\', 't']
  else if c = Char.ofNat 10 then ['\\', 'n']
  else if c = Char.ofNat 12 then ['\\', 'f']
  else if c = Char.ofNat 13 then ['\\', 'r']
  else if c.toNat < 32 then
    ['\\', 'u', '0', '0', hexDigitChar (c.toNat / 16), hexDigitChar (c.toNat % 16)]
  else [c]

/-- Escape every character of a JSON string body. -/
def escChars : List Char → List Char
  | [] => []
  | c :: cs => escChar c ++ escChars cs

/-- The character named by a single-character JSON escape. -/
def unescOf (e : Char) : Option Char :=
  if e = '"' then some '"'
  else if e = '\\' then some '\\'
  else if e = '/' then some '/'
  else if e = 'b' then some (Char.ofNat 8)
  else if e = 't' then some (Char.ofNat 9)
  else if e = 'n' then some (Char.ofNat 10)
  else if e = 'f' then some (Char.ofNat 12)
  else if e = 'r' then some (Char.ofNat 13)
  else none

/-- Modelled from the spec: the string-literal scanner of the host's
`JSON.parse` (JSON-decode), reading a string body up to and past the
closing quote, resolving backslash escapes (`\uXXXX` digits are read with
`hexVal`). -/
def parseStrBody : List Char → Option (List Char × List Char)
  | [] => none
  | c :: r =>
    if c = '"' then some ([], r)
    else if c = '\\' then
      match r with
      | [] => none
      | e :: r2 =>
        if e = 'u' then
          match r2 with
          | a :: b :: c2 :: d :: r3 =>
            (parseStrBody r3).map (fun p =>
              (Char.ofNat (((hexVal a * 16 + hexVal b) * 16 + hexVal c2) * 16 + hexVal d) :: p.1,
               p.2))
          | _ => none
        else
          match unescOf e with
          | some ch => (parseStrBody r2).map (fun p => (ch :: p.1, p.2))
          | none => none
    else (parseStrBody r).map (fun p => (c :: p.1, p.2))
termination_by cs => cs.length
decreasing_by all_goals (simp <;> omega)

theorem parseStrBody_esc (cs rest : List Char) :
    parseStrBody (escChars cs ++ '"' :: rest) = some (cs, rest) := by
  induction cs with
  | nil =>
    show parseStrBody ('"' :: rest) = some ([], rest)
    rw [parseStrBody.eq_def]
    simp
  | cons c cs ih =>
    by_cases h1 : c = '"'
    · subst h1
      rw [escChars, escChar, if_pos rfl, List.append_assoc, parseStrBody.eq_def]
      simp [unescOf, ih]
    by_cases h2 : c = '\\'
    · subst h2
      rw [escChars, escChar, if_neg (by decide), if_pos rfl, List.append_assoc,
        parseStrBody.eq_def]
      simp [unescOf, ih]
    by_cases h3 : c = Char.ofNat 8
    · subst h3
      rw [escChars, escChar, if_neg (by decide), if_neg (by decide), if_pos rfl,
        List.append_assoc, parseStrBody.eq_def]
      simp [unescOf, ih]
    by_cases h4 : c = Char.ofNat 9
    · subst h4
      rw [escChars, escChar, if_neg (by decide), if_neg (by decide), if_neg (by decide),
        if_pos rfl, List.append_assoc, parseStrBody.eq_def]
      simp [unescOf, ih]
    by_cases h5 : c = Char.ofNat 10
    · subst h5
      rw [escChars, escChar, if_neg (by decide), if_neg (by decide), if_neg (by decide),
        if_neg (by decide), if_pos rfl, List.append_assoc, parseStrBody.eq_def]
      simp [unescOf, ih]
    by_cases h6 : c = Char.ofNat 12
    · subst h6
      rw [escChars, escChar, if_neg (by decide), if_neg (by decide), if_neg (by decide),
        if_neg (by decide), if_neg (by decide), if_pos rfl, List.append_assoc,
        parseStrBody.eq_def]
      simp [unescOf, ih]
    by_cases h7 : c = Char.ofNat 13
    · subst h7
      rw [escChars, escChar, if_neg (by decide), if_neg (by decide), if_neg (by decide),
        if_neg (by decide), if_neg (by decide), if_neg (by decide), if_pos rfl,
        List.append_assoc, parseStrBody.eq_def]
      simp [unescOf, ih]
    by_cases h8 : c.toNat < 32
    · have hdiv : c.toNat / 16 < 16 := by omega
      have hmod : c.toNat % 16 < 16 := by omega
      have hv : ((hexVal '0' * 16 + hexVal '0') * 16 + hexVal (hexDigitChar (c.toNat / 16))) * 16
          + hexVal (hexDigitChar (c.toNat % 16)) = c.toNat := by
        rw [hexVal_hexDigitChar _ hdiv, hexVal_hexDigitChar _ hmod]
        have h0 : hexVal '0' = 0 := by decide
        rw [h0]
        omega
      have hesc : escChar c =
          ['\\', 'u', '0', '0', hexDigitChar (c.toNat / 16), hexDigitChar (c.toNat % 16)] := by
        unfold escChar
        rw [if_neg h1, if_neg h2, if_neg h3, if_neg h4, if_neg h5, if_neg h6, if_neg h7,
          if_pos h8]
      rw [escChars, hesc, List.append_assoc, parseStrBody.eq_def]
      simp [ih, hv, Char.ofNat_toNat]
    · have hesc : escChar c = [c] := by
        unfold escChar
        rw [if_neg h1, if_neg h2, if_neg h3, if_neg h4, if_neg h5, if_neg h6, if_neg h7,
          if_neg h8]
      rw [escChars, hesc, List.append_assoc, parseStrBody.eq_def]
      simp [h1, h2, ih]

mutual

/-- Modelled from the spec: the host's `JSON.stringify` (JSON-encode) with
no spacing argument, on the value model: `null` for `null` (and for the
`undefined`/`NaN` sentinels as they render inside arrays), decimal
integers, escaped double-quoted strings, bracketed arrays and braced
objects with fields in insertion order. -/
def printJson : JsVal → List Char
  | JsVal.vundef => ['n', 'u', 'l', 'l']
  | JsVal.vnull => ['n', 'u', 'l', 'l']
  | JsVal.vbool true => ['t', 'r', 'u', 'e']
  | JsVal.vbool false => ['f', 'a', 'l', 's', 'e']
  | JsVal.vnum n => intChars n
  | JsVal.vnan => ['n', 'u', 'l', 'l']
  | JsVal.vstr s => '"' :: (escChars s.data ++ ['"'])
  | JsVal.varr xs => '[' :: printItemsBody xs
  | JsVal.vobj fs => '{' :: printFieldsBody fs

/-- Comma-separated array elements, including the closing bracket. -/
def printItemsBody : List JsVal → List Char
  | [] => [']']
  | [x] => printJson x ++ [']']
  | x :: y :: xs => printJson x ++ ',' :: printItemsBody (y :: xs)

/-- Comma-separated object fields, including the closing brace. -/
def printFieldsBody : List (String × JsVal) → List Char
  | [] => ['}']
  | [(k, v)] => '"' :: (escChars k.data ++ '"' :: ':' :: printJson v) ++ ['}']
  | (k, v) :: f :: fs =>
    '"' :: (escChars k.data ++ '"' :: ':' :: printJson v) ++ ',' :: printFieldsBody (f :: fs)

end

/-- Expect a literal run of characters, returning the remainder. -/
def expectChars : List Char → List Char → Option (List Char)
  | [], cs => some cs
  | _ :: _, [] => none
  | e :: es, c :: cs => if c = e then expectChars es cs else none

mutual

/-- Modelled from the spec: the host's `JSON.parse` (JSON-decode) on the
whitespace-free documents `JSON.stringify` emits, with the numeric model
restricted to optional-sign decimal integers.  The first argument is
recursion fuel; each nested value costs one unit. -/
def parseJ : Nat → List Char → Option (JsVal × List Char)
  | 0, _ => none
  | fuel + 1, cs =>
    match cs with
    | [] => none
    | c :: r =>
      if c = '"' then
        (parseStrBody r).map (fun p => (JsVal.vstr (String.mk p.1), p.2))
      else if c = 'n' then
        match expectChars ['u', 'l', 'l'] r with
        | some r2 => some (JsVal.vnull, r2)
        | none => none
      else if c = 't' then
        match expectChars ['r', 'u', 'e'] r with
        | some r2 => some (JsVal.vbool true, r2)
        | none => none
      else if c = 'f' then
        match expectChars ['a', 'l', 's', 'e'] r with
        | some r2 => some (JsVal.vbool false, r2)
        | none => none
      else if c = '[' then
        match parseItems fuel r with
        | some p => some (JsVal.varr p.1, p.2)
        | none => none
      else if c = '{' then
        match parseFields fuel r with
        | some p => some (JsVal.vobj p.1, p.2)
        | none => none
      else if c = '-' then
        match grabDigits r with
        | ([], _) => none
        | (ds, r2) => some (JsVal.vnum (-(digitsVal ds : Int)), r2)
      else if c.isDigit then
        match grabDigits (c :: r) with
        | (ds, r2) => some (JsVal.vnum (digitsVal ds), r2)
      else none

/-- Array elements after the opening bracket, consuming the closing one. -/
def parseItems : Nat → List Char → Option (List JsVal × List Char)
  | 0, _ => none
  | fuel + 1, cs =>
    match cs with
    | [] => none
    | c :: r =>
      if c = ']' then some ([], r)
      else
        match parseJ fuel (c :: r) with
        | none => none
        | some (v, r1) =>
          match r1 with
          | ',' :: r2 =>
            match parseItems fuel r2 with
            | some (xs, r3) => some (v :: xs, r3)
            | none => none
          | ']' :: r2 => some ([v], r2)
          | _ => none

/-- Object fields after the opening brace, consuming the closing one. -/
def parseFields : Nat → List Char → Option (List (String × JsVal) × List Char)
  | 0, _ => none
  | fuel + 1, cs =>
    match cs with
    | [] => none
    | c :: r =>
      if c = '}' then some ([], r)
      else if c = '"' then
        match parseStrBody r with
        | none => none
        | some (kcs, r1) =>
          match r1 with
          | ':' :: r2 =>
            match parseJ fuel r2 with
            | none => none
            | some (v, r3) =>
              match r3 with
              | ',' :: r4 =>
                match parseFields fuel r4 with
                | some (fs, r5) => some ((String.mk kcs, v) :: fs, r5)
                | none => none
              | '}' :: r4 => some ([(String.mk kcs, v)], r4)
              | _ => none
          | _ => none
      else none

end

mutual

/-- Fuel needed by `parseJ` to parse the printed form of a value. -/
def needJ : JsVal → Nat
  | JsVal.varr xs => needItems xs + 1
  | JsVal.vobj fs => needFields fs + 1
  | _ => 1

def needItems : List JsVal → Nat
  | [] => 1
  | x :: xs => max (needJ x) (needItems xs) + 1

def needFields : List (String × JsVal) → Nat
  | [] => 1
  | kv :: fs => max (needJ kv.2) (needFields fs) + 1

end

/-- No duplicate keys among object fields (JavaScript objects cannot hold
two entries with the same key). -/
def nodupKeysB : List (String × JsVal) → Bool
  | [] => true
  | kv :: fs => !(fs.any (fun kv2 => kv2.1 == kv.1)) && nodupKeysB fs

mutual

/-- The domain of the JSON round-trip law: values containing no
`undefined` and no `NaN`, with objects carrying no duplicate keys —
exactly the JSON-serializable structures with (model-)finite numbers. -/
def isSerializable : JsVal → Bool
  | JsVal.vundef => false
  | JsVal.vnan => false
  | JsVal.varr xs => itemsSerializable xs
  | JsVal.vobj fs => nodupKeysB fs && fieldsSerializable fs
  | _ => true

def itemsSerializable : List JsVal → Bool
  | [] => true
  | x :: xs => isSerializable x && itemsSerializable xs

def fieldsSerializable : List (String × JsVal) → Bool
  | [] => true
  | kv :: fs => isSerializable kv.2 && fieldsSerializable fs

end

theorem isDigit_not_special {c : Char} (h : c.isDigit = true) :
    c ≠ '"' ∧ c ≠ 'n' ∧ c ≠ 't' ∧ c ≠ 'f' ∧ c ≠ '[' ∧ c ≠ '{' ∧ c ≠ '-' ∧
      c ≠ ']' ∧ c ≠ ',' ∧ c ≠ '}' := by
  refine ⟨?_, ?_, ?_, ?_, ?_, ?_, ?_, ?_, ?_, ?_⟩ <;>
    (intro hc; subst hc; exact absurd h (by decide))

theorem needJ_pos (v : JsVal) : 1 ≤ needJ v := by
  cases v <;> simp [needJ]

theorem needItems_pos (xs : List JsVal) : 1 ≤ needItems xs := by
  cases xs <;> simp [needItems]

theorem needFields_pos (fs : List (String × JsVal)) : 1 ≤ needFields fs := by
  cases fs <;> simp [needFields]

theorem printJson_shape (v : JsVal) :
    ∃ c t, printJson v = c :: t ∧ c ≠ ']' ∧ c ≠ ',' ∧ c ≠ '}' := by
  cases v with
  | vundef => exact ⟨'n', _, rfl, by decide, by decide, by decide⟩
  | vnull => exact ⟨'n', _, rfl, by decide, by decide, by decide⟩
  | vnan => exact ⟨'n', _, rfl, by decide, by decide, by decide⟩
  | vbool b =>
    cases b
    · exact ⟨'f', _, rfl, by decide, by decide, by decide⟩
    · exact ⟨'t', _, rfl, by decide, by decide, by decide⟩
  | vstr s => exact ⟨'"', _, rfl, by decide, by decide, by decide⟩
  | varr xs => exact ⟨'[', _, rfl, by decide, by decide, by decide⟩
  | vobj fs => exact ⟨'{', _, rfl, by decide, by decide, by decide⟩
  | vnum n =>
    by_cases hn : n < 0
    · refine ⟨'-', natChars (-n).toNat, ?_, by decide, by decide, by decide⟩
      simp [printJson, intChars, hn]
    · obtain ⟨d, t, hd⟩ := List.exists_cons_of_ne_nil (natChars_ne_nil n.toNat)
      have hdig : d.isDigit = true := natChars_digits n.toNat d (by rw [hd]; simp)
      have hns := isDigit_not_special hdig
      refine ⟨d, t, ?_, hns.2.2.2.2.2.2.2.1, hns.2.2.2.2.2.2.2.2.1, hns.2.2.2.2.2.2.2.2.2⟩
      simp [printJson, intChars, hn, hd]

theorem parse_print (fuel : Nat) :
    (∀ v rest, isSerializable v = true → needJ v ≤ fuel → noDigitHead rest = true →
      parseJ fuel (printJson v ++ rest) = some (v, rest)) ∧
    (∀ xs rest, itemsSerializable xs = true → needItems xs ≤ fuel →
      parseItems fuel (printItemsBody xs ++ rest) = some (xs, rest)) ∧
    (∀ fs rest, fieldsSerializable fs = true → needFields fs ≤ fuel →
      parseFields fuel (printFieldsBody fs ++ rest) = some (fs, rest)) := by
  induction fuel with
  | zero =>
    refine ⟨?_, ?_, ?_⟩
    · intro v _ _ hneed _
      exact absurd hneed (by have := needJ_pos v; omega)
    · intro xs _ _ hneed
      exact absurd hneed (by have := needItems_pos xs; omega)
    · intro fs _ _ hneed
      exact absurd hneed (by have := needFields_pos fs; omega)
  | succ fuel ih =>
    obtain ⟨ihJ, ihI, ihF⟩ := ih
    refine ⟨?_, ?_, ?_⟩
    · intro v rest hser hneed hrest
      cases v with
      | vundef => simp [isSerializable] at hser
      | vnan => simp [isSerializable] at hser
      | vnull =>
        show parseJ (fuel + 1) (['n', 'u', 'l', 'l'] ++ rest) = some (JsVal.vnull, rest)
        rw [parseJ.eq_def]
        simp [expectChars]
      | vbool b =>
        cases b
        · show parseJ (fuel + 1) (['f', 'a', 'l', 's', 'e'] ++ rest)
            = some (JsVal.vbool false, rest)
          rw [parseJ.eq_def]
          simp [expectChars]
        · show parseJ (fuel + 1) (['t', 'r', 'u', 'e'] ++ rest)
            = some (JsVal.vbool true, rest)
          rw [parseJ.eq_def]
          simp [expectChars]
      | vstr s =>
        show parseJ (fuel + 1) (('"' :: (escChars s.data ++ ['"'])) ++ rest)
          = some (JsVal.vstr s, rest)
        rw [List.cons_append, List.append_assoc, List.singleton_append, parseJ.eq_def]
        simp [parseStrBody_esc]
      | vnum n =>
        by_cases hn : n < 0
        · obtain ⟨d, t, hd⟩ := List.exists_cons_of_ne_nil (natChars_ne_nil (-n).toNat)
          have hgrab : grabDigits (d :: (t ++ rest)) = (d :: t, rest) := by
            rw [← List.cons_append, ← hd]
            exact grabDigits_append _ _ (natChars_digits _) hrest
          have hval : digitsVal (d :: t) = (-n).toNat := by
            rw [← hd]; exact digitsVal_natChars _
          have hcast : (((-n).toNat : Nat) : Int) = -n := Int.toNat_of_nonneg (by omega)
          show parseJ (fuel + 1) (intChars n ++ rest) = some (JsVal.vnum n, rest)
          rw [intChars, if_pos hn, hd, List.cons_append, parseJ.eq_def]
          simp [hgrab, hval, hcast]
        · obtain ⟨d, t, hd⟩ := List.exists_cons_of_ne_nil (natChars_ne_nil n.toNat)
          have hdig : d.isDigit = true := natChars_digits n.toNat d (by rw [hd]; simp)
          have hns := isDigit_not_special hdig
          have hgrab : grabDigits (d :: (t ++ rest)) = (d :: t, rest) := by
            rw [← List.cons_append, ← hd]
            exact grabDigits_append _ _ (natChars_digits _) hrest
          have hval : digitsVal (d :: t) = n.toNat := by
            rw [← hd]; exact digitsVal_natChars _
          have hcast : ((n.toNat : Nat) : Int) = n := Int.toNat_of_nonneg (by omega)
          show parseJ (fuel + 1) (intChars n ++ rest) = some (JsVal.vnum n, rest)
          rw [intChars, if_neg hn, hd, List.cons_append, parseJ.eq_def]
          simp [hns.1, hns.2.1, hns.2.2.1, hns.2.2.2.1, hns.2.2.2.2.1, hns.2.2.2.2.2.1,
            hns.2.2.2.2.2.2.1, hdig, hgrab, hval, hcast]
      | varr xs =>
        have hx : itemsSerializable xs = true := by simpa [isSerializable] using hser
        have hnx : needItems xs ≤ fuel := by
          simp [needJ] at hneed; omega
        show parseJ (fuel + 1) (('[' :: printItemsBody xs) ++ rest)
          = some (JsVal.varr xs, rest)
        rw [List.cons_append, parseJ.eq_def]
        simp [ihI xs rest hx hnx]
      | vobj fs =>
        have hf : fieldsSerializable fs = true := by
          simp [isSerializable, Bool.and_eq_true] at hser
          exact hser.2
        have hnf : needFields fs ≤ fuel := by
          simp [needJ] at hneed; omega
        show parseJ (fuel + 1) (('{' :: printFieldsBody fs) ++ rest)
          = some (JsVal.vobj fs, rest)
        rw [List.cons_append, parseJ.eq_def]
        simp [ihF fs rest hf hnf]
    · intro xs rest hser hneed
      cases xs with
      | nil =>
        show parseItems (fuel + 1) ([']'] ++ rest) = some ([], rest)
        rw [parseItems.eq_def]
        simp
      | cons x xs' =>
        obtain ⟨c, t, hp, hc1, _, _⟩ := printJson_shape x
        have hxser : isSerializable x = true := by
          simp [itemsSerializable, Bool.and_eq_true] at hser
          exact hser.1
        cases xs' with
        | nil =>
          have hnx : needJ x ≤ fuel := by
            simp [needItems] at hneed
            have := Nat.le_max_left (needJ x) (needItems ([] : List JsVal))
            omega
          have hPJ : parseJ fuel (printJson x ++ (']' :: rest)) = some (x, ']' :: rest) :=
            ihJ x (']' :: rest) hxser hnx (by rfl)
          rw [hp, List.cons_append] at hPJ
          show parseItems (fuel + 1) ((printJson x ++ [']']) ++ rest) = some ([x], rest)
          rw [List.append_assoc, List.singleton_append, hp, List.cons_append,
            parseItems.eq_def]
          simp [hc1, hPJ]
        | cons y xs'' =>
          have hysser : itemsSerializable (y :: xs'') = true := by
            simp [itemsSerializable, Bool.and_eq_true] at hser ⊢
            exact hser.2
          rw [show needItems (x :: y :: xs'')
              = max (needJ x) (needItems (y :: xs'')) + 1 from rfl] at hneed
          have hmax : max (needJ x) (needItems (y :: xs'')) ≤ fuel := by omega
          have hnx : needJ x ≤ fuel := le_trans (Nat.le_max_left _ _) hmax
          have hny : needItems (y :: xs'') ≤ fuel :=
            le_trans (Nat.le_max_right _ _) hmax
          have hItems : parseItems fuel (printItemsBody (y :: xs'') ++ rest)
              = some (y :: xs'', rest) := ihI (y :: xs'') rest hysser hny
          have hPJ : parseJ fuel (printJson x ++ (',' :: (printItemsBody (y :: xs'') ++ rest)))
              = some (x, ',' :: (printItemsBody (y :: xs'') ++ rest)) :=
            ihJ x _ hxser hnx (by rfl)
          rw [hp, List.cons_append] at hPJ
          show parseItems (fuel + 1)
              ((printJson x ++ ',' :: printItemsBody (y :: xs'')) ++ rest)
            = some (x :: y :: xs'', rest)
          rw [List.append_assoc, List.cons_append, hp, List.cons_append,
            parseItems.eq_def]
          simp [hc1, hPJ, hItems]
    · intro fs rest hser hneed
      cases fs with
      | nil =>
        show parseFields (fuel + 1) (['}'] ++ rest) = some ([], rest)
        rw [parseFields.eq_def]
        simp
      | cons kv fs' =>
        obtain ⟨k, v⟩ := kv
        have hvser : isSerializable v = true := by
          simp [fieldsSerializable, Bool.and_eq_true] at hser
          exact hser.1
        cases fs' with
        | nil =>
          have hnv : needJ v ≤ fuel := by
            simp [needFields] at hneed
            have := Nat.le_max_left (needJ v) (needFields ([] : List (String × JsVal)))
            omega
          have hPJ : parseJ fuel (printJson v ++ ('}' :: rest)) = some (v, '}' :: rest) :=
            ihJ v ('}' :: rest) hvser hnv (by rfl)
          show parseFields (fuel + 1)
              ((('"' :: (escChars k.data ++ '"' :: ':' :: printJson v)) ++ ['}']) ++ rest)
            = some ([(k, v)], rest)
          simp only [List.append_assoc, List.cons_append, List.singleton_append]
          rw [parseFields.eq_def]
          have hkey : parseStrBody (escChars k.data ++ '"' :: (':' :: (printJson v ++ '}' :: rest)))
              = some (k.data, ':' :: (printJson v ++ '}' :: rest)) := parseStrBody_esc _ _
          simp [hkey, hPJ]
        | cons kv2 fs'' =>
          have hfser : fieldsSerializable (kv2 :: fs'') = true := by
            simp [fieldsSerializable, Bool.and_eq_true] at hser ⊢
            exact hser.2
          rw [show needFields ((k, v) :: kv2 :: fs'')
              = max (needJ v) (needFields (kv2 :: fs'')) + 1 from rfl] at hneed
          have hmax : max (needJ v) (needFields (kv2 :: fs'')) ≤ fuel := by omega
          have hnv : needJ v ≤ fuel := le_trans (Nat.le_max_left _ _) hmax
          have hnf : needFields (kv2 :: fs'') ≤ fuel :=
            le_trans (Nat.le_max_right _ _) hmax
          have hFields : parseFields fuel (printFieldsBody (kv2 :: fs'') ++ rest)
              = some (kv2 :: fs'', rest) := ihF (kv2 :: fs'') rest hfser hnf
          have hPJ : parseJ fuel
              (printJson v ++ (',' :: (printFieldsBody (kv2 :: fs'') ++ rest)))
              = some (v, ',' :: (printFieldsBody (kv2 :: fs'') ++ rest)) :=
            ihJ v _ hvser hnv (by rfl)
          show parseFields (fuel + 1)
              ((('"' :: (escChars k.data ++ '"' :: ':' :: printJson v))
                ++ ',' :: printFieldsBody (kv2 :: fs'')) ++ rest)
            = some ((k, v) :: kv2 :: fs'', rest)
          simp only [List.append_assoc, List.cons_append, List.singleton_append]
          rw [parseFields.eq_def]
          have hkey : parseStrBody
              (escChars k.data ++ '"' :: (':' :: (printJson v
                ++ ',' :: (printFieldsBody (kv2 :: fs'') ++ rest))))
              = some (k.data, ':' :: (printJson v
                ++ ',' :: (printFieldsBody (kv2 :: fs'') ++ rest))) := parseStrBody_esc _ _
          simp [hkey, hPJ, hFields]

theorem printJson_length_pos (v : JsVal) : 1 ≤ (printJson v).length := by
  obtain ⟨c, t, hp, _, _, _⟩ := printJson_shape v
  rw [hp]
  simp

theorem need_le_len (k : Nat) :
    (∀ v : JsVal, sizeOf v ≤ k → needJ v ≤ (printJson v).length) ∧
    (∀ xs : List JsVal, sizeOf xs ≤ k → needItems xs ≤ (printItemsBody xs).length) ∧
    (∀ fs : List (String × JsVal), sizeOf fs ≤ k →
      needFields fs ≤ (printFieldsBody fs).length) := by
  induction k with
  | zero =>
    refine ⟨?_, ?_, ?_⟩
    · intro v h
      exact absurd h (by cases v <;> simp)
    · intro xs h
      exact absurd h (by cases xs <;> simp)
    · intro fs h
      exact absurd h (by cases fs <;> simp)
  | succ k ih =>
    obtain ⟨ihJ, ihI, ihF⟩ := ih
    refine ⟨?_, ?_, ?_⟩
    · intro v hs
      cases v with
      | vundef => simp [needJ, printJson]
      | vnull => simp [needJ, printJson]
      | vnan => simp [needJ, printJson]
      | vbool b => cases b <;> simp [needJ, printJson]
      | vnum n =>
        have := printJson_length_pos (JsVal.vnum n)
        simp [needJ]
        omega
      | vstr s =>
        have := printJson_length_pos (JsVal.vstr s)
        simp [needJ]
        omega
      | varr xs =>
        have hsx : sizeOf xs ≤ k := by
          simp at hs
          omega
        have := ihI xs hsx
        simp [needJ, printJson]
        omega
      | vobj fs =>
        have hsf : sizeOf fs ≤ k := by
          simp at hs
          omega
        have := ihF fs hsf
        simp [needJ, printJson]
        omega
    · intro xs hs
      cases xs with
      | nil => simp [needItems, printItemsBody]
      | cons x xs' =>
        have hsx : sizeOf x ≤ k := by
          simp at hs
          omega
        have hx := ihJ x hsx
        cases xs' with
        | nil =>
          have h1 := printJson_length_pos x
          have hm : max (needJ x) 1 ≤ (printJson x).length := Nat.max_le.mpr ⟨hx, h1⟩
          rw [show needItems [x] = max (needJ x) (needItems []) + 1 from rfl,
            show needItems ([] : List JsVal) = 1 from rfl,
            show printItemsBody [x] = printJson x ++ [']'] from rfl,
            List.length_append]
          simp only [List.length_cons, List.length_nil]
          omega
        | cons y xs'' =>
          have hsy : sizeOf (y :: xs'') ≤ k := by
            simp at hs ⊢
            omega
          have hy := ihI (y :: xs'') hsy
          have h1 := printJson_length_pos x
          have hm : max (needJ x) (needItems (y :: xs''))
              ≤ (printJson x).length + (printItemsBody (y :: xs'')).length :=
            Nat.max_le.mpr ⟨by omega, by omega⟩
          rw [show needItems (x :: y :: xs'')
              = max (needJ x) (needItems (y :: xs'')) + 1 from rfl,
            show printItemsBody (x :: y :: xs'')
              = printJson x ++ ',' :: printItemsBody (y :: xs'') from rfl,
            List.length_append]
          simp only [List.length_cons]
          omega
    · intro fs hs
      cases fs with
      | nil => simp [needFields, printFieldsBody]
      | cons kv fs' =>
        obtain ⟨ky, v⟩ := kv
        have hsv : sizeOf v ≤ k := by
          simp at hs
          omega
        have hv := ihJ v hsv
        cases fs' with
        | nil =>
          have h1 := printJson_length_pos v
          have hm : max (needJ v) 1 ≤ (printJson v).length := Nat.max_le.mpr ⟨hv, h1⟩
          have hge : (printJson v).length + 2 ≤ (printFieldsBody [(ky, v)]).length := by
            rw [show printFieldsBody [(ky, v)]
              = '"' :: (escChars ky.data ++ '"' :: ':' :: printJson v) ++ ['}'] from rfl]
            simp only [List.cons_append, List.length_append, List.length_cons,
              List.length_nil]
            omega
          rw [show needFields [(ky, v)] = max (needJ v) (needFields []) + 1 from rfl,
            show needFields ([] : List (String × JsVal)) = 1 from rfl]
          omega
        | cons kv2 fs'' =>
          have hsf : sizeOf (kv2 :: fs'') ≤ k := by
            simp at hs ⊢
            omega
          have hf := ihF (kv2 :: fs'') hsf
          have h1 := printJson_length_pos v
          have hm : max (needJ v) (needFields (kv2 :: fs''))
              ≤ (printJson v).length + (printFieldsBody (kv2 :: fs'')).length :=
            Nat.max_le.mpr ⟨by omega, by omega⟩
          have hge : (printJson v).length + (printFieldsBody (kv2 :: fs'')).length + 2
              ≤ (printFieldsBody ((ky, v) :: kv2 :: fs'')).length := by
            rw [show printFieldsBody ((ky, v) :: kv2 :: fs'')
              = '"' :: (escChars ky.data ++ '"' :: ':' :: printJson v)
                ++ ',' :: printFieldsBody (kv2 :: fs'') from rfl]
            simp only [List.cons_append, List.length_append, List.length_cons,
              List.length_nil]
            omega
          rw [show needFields ((ky, v) :: kv2 :: fs'')
              = max (needJ v) (needFields (kv2 :: fs'')) + 1 from rfl]
          omega

/-- Modelled from the spec: the host `JSON.stringify` on the value model,
as a string. -/
def jsonStringify (v : JsVal) : String := String.mk (printJson v)

/-- Modelled from the spec: the host `JSON.parse`, requiring the whole
input to be consumed; `none` models a thrown `SyntaxError`. -/
def jsonParse (s : String) : Option JsVal :=
  match parseJ (s.data.length + 1) s.data with
  | some (v, []) => some v
  | _ => none

theorem jsonParse_stringify (v : JsVal) (h : isSerializable v = true) :
    jsonParse (jsonStringify v) = some v := by
  have hlen := (need_le_len (sizeOf v)).1 v le_rfl
  have hmain := (parse_print ((printJson v).length + 1)).1 v []
    h (by omega) (by rfl)
  rw [List.append_nil] at hmain
  unfold jsonParse jsonStringify
  rw [show (String.mk (printJson v)).data = printJson v from rfl]
  rw [hmain]

/-- Modelled from the spec: the host `String(v)` conversion.  Primitive
values are rendered faithfully; aggregates (never serialized by any
built-in format's declared domain) are approximated by their typical
renderings. -/
def jsToString : JsVal → String
  | JsVal.vundef => "undefined"
  | JsVal.vnull => "null"
  | JsVal.vbool true => "true"
  | JsVal.vbool false => "false"
  | JsVal.vnum n => intToString n
  | JsVal.vnan => "NaN"
  | JsVal.vstr s => s
  | JsVal.varr _ => ""
  | JsVal.vobj _ => "[object Object]"

/-- Modelled from the spec: the host `parseInt` restricted to
optional-sign decimal strings (the only shape the registry's serializers
emit); no digits parse to the `NaN` sentinel. -/
def jsParseInt (s : String) : JsVal :=
  match s.data with
  | [] => JsVal.vnan
  | c :: cs =>
    if c = '-' then
      match grabDigits cs with
      | ([], _) => JsVal.vnan
      | (ds, _) => JsVal.vnum (-(digitsVal ds : Int))
    else
      match grabDigits (c :: cs) with
      | ([], _) => JsVal.vnan
      | (ds, _) => JsVal.vnum (digitsVal ds)

/-- Modelled from the spec: the host `parseFloat` on the same restricted
optional-sign decimal fragment (integral values round-trip exactly). -/
def jsParseFloat (s : String) : JsVal := jsParseInt s

namespace UrlMirror

/-- From `src/unnamed/part_004` lines 199-202, the `'String'` serializer:
`null`/`undefined` to `null`, otherwise `String(s)`. -/
def serializeString : JsVal → Raw
  | JsVal.vnull => Raw.null
  | JsVal.vundef => Raw.null
  | v => Raw.str (jsToString v)

/-- From `src/unnamed/part_004` line 200, the `'String'` deserializer:
`null`/`undefined` to `null`, otherwise `String(v)` of the raw value. -/
def deserializeString : Raw → JsVal
  | Raw.undef => JsVal.vnull
  | Raw.null => JsVal.vnull
  | Raw.str s => JsVal.vstr s
  | Raw.num n => JsVal.vstr (intToString n)

/-- From `src/unnamed/part_004` lines 186-189 and 193-196, the shared
`'Integer'`/`'Number'`/`'Float'` serializer: a number serializes to its
decimal string (`NaN` to `null`); `null`/`undefined` to `null`; any other
value to `String(v)`. -/
def serializeNumber : JsVal → Raw
  | JsVal.vnum n => Raw.str (intToString n)
  | JsVal.vnan => Raw.null
  | JsVal.vnull => Raw.null
  | JsVal.vundef => Raw.null
  | v => Raw.str (jsToString v)

/-- From `src/unnamed/part_004` line 190, the `'Integer'` deserializer:
`null`/`undefined` to `null`, otherwise `parseInt(s)` (a numeric raw value
is coerced to its decimal string first, as the host `parseInt` does). -/
def deserializeInteger : Raw → JsVal
  | Raw.undef => JsVal.vnull
  | Raw.null => JsVal.vnull
  | Raw.str s => jsParseInt s
  | Raw.num n => jsParseInt (intToString n)

/-- From `src/unnamed/part_004` line 197, the `'Number'`/`'Float'`
deserializer: `null`/`undefined` to `null`, otherwise `parseFloat(s)`. -/
def deserializeFloat : Raw → JsVal
  | Raw.undef => JsVal.vnull
  | Raw.null => JsVal.vnull
  | Raw.str s => jsParseFloat s
  | Raw.num n => jsParseFloat (intToString n)

/-- From `src/unnamed/part_004` line 205, the `'Boolean'` serializer:
`true` to `'1'`, `false` to `'0'`, anything else to `null`. -/
def serializeBoolean : JsVal → Raw
  | JsVal.vbool true => Raw.str "1"
  | JsVal.vbool false => Raw.str "0"
  | _ => Raw.null

/-- From `src/unnamed/part_004` line 206, the `'Boolean'` deserializer:
`'1'` to `true`, `'0'` to `false`, anything else to `null` (comparison is
strict, so a numeric raw value never matches). -/
def deserializeBoolean : Raw → JsVal
  | Raw.str s => if s = "1" then JsVal.vbool true
      else if s = "0" then JsVal.vbool false else JsVal.vnull
  | _ => JsVal.vnull

/-- From `src/unnamed/part_004` line 183, the `'JSON'` serializer:
`null`/`undefined` to `null`, otherwise `JSON.stringify(v)`. -/
def jsonSerialize : JsVal → Raw
  | JsVal.vnull => Raw.null
  | JsVal.vundef => Raw.null
  | v => Raw.str (jsonStringify v)

/-- From `src/unnamed/part_004` line 184, the `'JSON'` deserializer:
`null`/`undefined` to `null`, otherwise `JSON.parse(s)`; `none` models a
thrown parse error (a numeric raw value is coerced to its decimal
string). -/
def jsonDeserialize : Raw → Option JsVal
  | Raw.undef => some JsVal.vnull
  | Raw.null => some JsVal.vnull
  | Raw.str s => jsonParse s
  | Raw.num n => jsonParse (intToString n)

/-- The `'String'` pair bundled as a `DS` (the registry default). -/
def stringDS : DS := ⟨serializeString, deserializeString⟩

/-- The `'Integer'` pair bundled as a `DS`. -/
def integerDS : DS := ⟨serializeNumber, deserializeInteger⟩

end UrlMirror

theorem jsParseInt_intToString (n : Int) : jsParseInt (intToString n) = JsVal.vnum n := by
  have hdata : (intToString n).data = intChars n := rfl
  by_cases hn : n < 0
  · obtain ⟨d, t, hd⟩ := List.exists_cons_of_ne_nil (natChars_ne_nil (-n).toNat)
    have hgrab : grabDigits (natChars (-n).toNat) = (natChars (-n).toNat, []) := by
      simpa using grabDigits_append (natChars (-n).toNat) [] (natChars_digits _) rfl
    have hval := digitsVal_natChars (-n).toNat
    have hcast : (((-n).toNat : Nat) : Int) = -n := Int.toNat_of_nonneg (by omega)
    rw [hd] at hgrab hval
    unfold jsParseInt
    rw [hdata, intChars, if_pos hn, hd]
    simp [hgrab, hval, hcast]
  · obtain ⟨d, t, hd⟩ := List.exists_cons_of_ne_nil (natChars_ne_nil n.toNat)
    have hdig : d.isDigit = true := natChars_digits n.toNat d (by rw [hd]; simp)
    have hne : d ≠ '-' := (isDigit_not_special hdig).2.2.2.2.2.2.1
    have hgrab : grabDigits (natChars n.toNat) = (natChars n.toNat, []) := by
      simpa using grabDigits_append (natChars n.toNat) [] (natChars_digits _) rfl
    have hval := digitsVal_natChars n.toNat
    have hcast : ((n.toNat : Nat) : Int) = n := Int.toNat_of_nonneg (by omega)
    rw [hd] at hgrab hval
    unfold jsParseInt
    rw [hdata, intChars, if_neg hn, hd]
    simp [hne, hgrab, hval, hcast]

theorem jsonRound (v : JsVal) (h : isSerializable v = true) :
    UrlMirror.jsonDeserialize (UrlMirror.jsonSerialize v) = some v := by
  cases v with
  | vundef => simp [isSerializable] at h
  | vnan => simp [isSerializable] at h
  | vnull => rfl
  | vbool b => exact jsonParse_stringify _ h
  | vnum n => exact jsonParse_stringify _ h
  | vstr s => exact jsonParse_stringify _ h
  | varr xs => exact jsonParse_stringify _ h
  | vobj fs => exact jsonParse_stringify _ h

/-- The spec's worked merge-semantics route: current query
`{a:"1", b:"2"}`, with a route name and an unrelated extra own property. -/
def demoRoute : RouteLoc :=
  { name := some "home"
    query := [("a", Raw.str "1"), ("b", Raw.str "2")]
    params := [("id", Raw.str "5")]
    extra := [("path", Raw.str "/home")] }

/-- A route defining nothing: empty query and params. -/
def emptyRoute : RouteLoc :=
  { name := none, query := [], params := [], extra := [] }

/-- A router `replace` implementation that always reports a navigation
failure. -/
def failingReplace : RouteLoc → Except String Unit :=
  fun _ => Except.error "navigation failure"

/-- A router `replace` implementation that always succeeds. -/
def okReplace : RouteLoc → Except String Unit :=
  fun _ => Except.ok ()

theorem fieldStringOf_cases (pn : String) :
    fieldStringOf pn = "param" ∨ fieldStringOf pn = "query" := by
  unfold fieldStringOf
  by_cases h : leadMatch paramMark.data pn.data <;> simp [h]

theorem routeIndex_query (r : RouteLoc) : routeIndex r "query" = some r.query := rfl

theorem routeIndex_param (r : RouteLoc) : routeIndex r "param" = none := rfl

theorem addBindingSetup_param (ds : DS) (pn : String) (r : RouteLoc) (cv : JsVal)
    (h : fieldStringOf pn = "param") :
    UrlMirror.addBindingSetup ds pn r cv = Except.error "TypeError" := by
  unfold UrlMirror.addBindingSetup
  rw [h, routeIndex_param]

theorem coBindingSetup_param (ds : DS) (pn : String) (r : RouteLoc)
    (lus : StrMap Raw) (h : fieldStringOf pn = "param") :
    UrlMirror.coBindingSetup ds pn r lus = Except.error "TypeError" := by
  unfold UrlMirror.coBindingSetup
  rw [h, routeIndex_param]

/-- C1: for every binding actually made by `UrlMirror.add` or
`UrlMirror.createObject` — setup only completes for `'query'`-classified
names, since a `'@'`-prefixed name throws a TypeError at the first
`ru.route['param'][key]` read and no param binding ever exists — the
value→URL watcher stores the serialized raw result in the binding's
last-written-value record before the navigation is issued, so the
URL→value watcher invocation observing that same route change reads back
an equal raw value and performs no second assignment to the local
value. -/
theorem urlMirror_no_echo :
    (∀ (ds : DS) (pn : String) (r : RouteLoc) (cv : JsVal)
        (res : Raw × UrlMirror.InitResult),
      UrlMirror.addBindingSetup ds pn r cv = Except.ok res →
      fieldStringOf pn = "query" ∧
      ∀ (pm : RouterUtil.NavKind) (v : JsVal) (r' : RouteLoc),
        (UrlMirror.addValueWatcher ds "query" (urlKeyOf pn) pm v).1
          = ds.serializer v ∧
        Except.map
          (UrlMirror.addUrlWatcher ds
            (UrlMirror.addValueWatcher ds "query" (urlKeyOf pn) pm v).1)
          (routeRead
            (applyNav r' (UrlMirror.addValueWatcher ds "query" (urlKeyOf pn) pm v).2)
            "query" (urlKeyOf pn))
          = Except.ok none) ∧
    (∀ (ds : DS) (pn : String) (r : RouteLoc) (lus : StrMap Raw)
        (res : UrlMirror.CoInitOut),
      UrlMirror.coBindingSetup ds pn r lus = Except.ok res →
      fieldStringOf pn = "query" ∧
      ∀ (pm : String → JsVal → RouterUtil.NavKind) (v : JsVal) (r' : RouteLoc)
          (lus2 : StrMap Raw),
        rawGet (UrlMirror.coValueWatcher ds "query" pn (urlKeyOf pn) lus2 pm v).1 pn
          = ds.serializer v ∧
        Except.map
          (UrlMirror.coUrlWatcher ds
            (UrlMirror.coValueWatcher ds "query" pn (urlKeyOf pn) lus2 pm v).1 pn)
          (routeRead
            (applyNav r' (UrlMirror.coValueWatcher ds "query" pn (urlKeyOf pn) lus2 pm v).2)
            "query" (urlKeyOf pn))
          = Except.ok none) := by
  constructor
  · intro ds pn r cv res h
    have hq : fieldStringOf pn = "query" := by
      rcases fieldStringOf_cases pn with hp | hq
      · rw [addBindingSetup_param ds pn r cv hp] at h
        exact absurd h (by simp)
      · exact hq
    refine ⟨hq, ?_⟩
    intro pm v r'
    refine ⟨rfl, ?_⟩
    simp [UrlMirror.addValueWatcher, UrlMirror.addUrlWatcher, applyNav,
      RouterUtil.patchUrl, routeRead, routeIndex_query, rawGet, spreadMap_get,
      mapGet_cons, Except.map]
  · intro ds pn r lus res h
    have hq : fieldStringOf pn = "query" := by
      rcases fieldStringOf_cases pn with hp | hq
      · rw [coBindingSetup_param ds pn r lus hp] at h
        exact absurd h (by simp)
      · exact hq
    refine ⟨hq, ?_⟩
    intro pm v r' lus2
    constructor
    · simp [UrlMirror.coValueWatcher, rawGet, objSet_get]
    · simp [UrlMirror.coValueWatcher, UrlMirror.coUrlWatcher, applyNav,
        RouterUtil.patchUrl, routeRead, routeIndex_query, rawGet, spreadMap_get,
        mapGet_cons, objSet_get, Except.map]

/-- C1 witness: a concrete query binding is made (name `q` on the empty
route), and the no-echo composite — write, navigate, observe through the
faithful `route['query'][key]` read — evaluates to `Except.ok none` at
concrete values for both `add` and `createObject` watchers. -/
theorem urlMirror_no_echo_witness :
    (UrlMirror.addBindingSetup UrlMirror.stringDS "q" emptyRoute JsVal.vnull
      = Except.ok (Raw.undef, UrlMirror.InitResult.write
          { method := RouterUtil.NavKind.replace
            query := [("q", Raw.null)]
            params := [] })) ∧
    fieldStringOf "q" = "query" ∧
    Except.map
      (UrlMirror.addUrlWatcher UrlMirror.stringDS
        (UrlMirror.addValueWatcher UrlMirror.stringDS "query" (urlKeyOf "q")
          RouterUtil.NavKind.replace (JsVal.vstr "x")).1)
      (routeRead
        (applyNav demoRoute
          (UrlMirror.addValueWatcher UrlMirror.stringDS "query" (urlKeyOf "q")
            RouterUtil.NavKind.replace (JsVal.vstr "x")).2)
        "query" (urlKeyOf "q"))
      = Except.ok none ∧
    (UrlMirror.coBindingSetup UrlMirror.stringDS "q" emptyRoute []
      = Except.ok { value := JsVal.vnull, nav := none, lastUrl := [] }) ∧
    Except.map
      (UrlMirror.coUrlWatcher UrlMirror.stringDS
        (UrlMirror.coValueWatcher UrlMirror.stringDS "query" "q" (urlKeyOf "q") []
          (fun _ _ => RouterUtil.NavKind.replace) (JsVal.vstr "x")).1 "q")
      (routeRead
        (applyNav demoRoute
          (UrlMirror.coValueWatcher UrlMirror.stringDS "query" "q" (urlKeyOf "q") []
            (fun _ _ => RouterUtil.NavKind.replace) (JsVal.vstr "x")).2)
        "query" (urlKeyOf "q"))
      = Except.ok none := by
  have h1 : UrlMirror.addBindingSetup UrlMirror.stringDS "q" emptyRoute JsVal.vnull
      = Except.ok (Raw.undef, UrlMirror.InitResult.write
          { method := RouterUtil.NavKind.replace
            query := [("q", Raw.null)]
            params := [] }) := rfl
  have h2 : UrlMirror.coBindingSetup UrlMirror.stringDS "q" emptyRoute []
      = Except.ok { value := JsVal.vnull, nav := none, lastUrl := [] } := rfl
  have a := urlMirror_no_echo.1 UrlMirror.stringDS "q" emptyRoute JsVal.vnull _ h1
  have b := urlMirror_no_echo.2 UrlMirror.stringDS "q" emptyRoute [] _ h2
  exact ⟨h1, a.1,
    (a.2 RouterUtil.NavKind.replace (JsVal.vstr "x") demoRoute).2,
    h2,
    (b.2 (fun _ _ => RouterUtil.NavKind.replace) (JsVal.vstr "x") demoRoute []).2⟩

/-- C8: `patchUrl` with `query = false` empties the result query; with a
patch record it shallow-merges the current query with the supplied keys,
supplied keys overwriting by key (on the spec's example,
`{a:"1", b:"2"}` patched with `{b:"3"}` yields `{a:"1", b:"3"}`);
`params = false` empties params; `name = null` preserves the current
name. -/
theorem patchUrl_merge_semantics :
    (∀ (r : RouteLoc) (p : QArg) (n : Option String),
      (RouterUtil.patchUrl r QArg.clear p n).query = []) ∧
    (∀ (r : RouteLoc) (q : StrMap Raw) (p : QArg) (n : Option String) (k : String),
      mapGet (RouterUtil.patchUrl r (QArg.patch q) p n).query k
        = (mapGet q k).or (mapGet r.query k)) ∧
    ((RouterUtil.patchUrl demoRoute (QArg.patch [("b", Raw.str "3")])
        (QArg.patch []) none).query
      = [("a", Raw.str "1"), ("b", Raw.str "3")]) ∧
    (∀ (r : RouteLoc) (q : QArg) (n : Option String),
      (RouterUtil.patchUrl r q QArg.clear n).params = []) ∧
    (∀ (r : RouteLoc) (q p : QArg),
      (RouterUtil.patchUrl r q p none).name = r.name) := by
  refine ⟨fun r p n => rfl, fun r q p n k => ?_, ?_, fun r q n => rfl, fun r q p => rfl⟩
  · simp [RouterUtil.patchUrl, spreadMap_get]
  · rfl

/-- C10: `patchUrl` never mutates the current route: it is a pure
constructor of a new location value, and every own property of the current
route other than `name`, `query` and `params` (collected in `extra`)
appears unchanged in the result. -/
theorem patchUrl_frame :
    ∀ (r : RouteLoc) (q p : QArg) (n : Option String),
      (RouterUtil.patchUrl r q p n).extra = r.extra :=
  fun _ _ _ _ => rfl

/-- C9 counterexample: with a router whose `replace` rejects the issued
navigation, the caller-visible result of `patchRouteR` is identical to the
all-success case (the promise is discarded), so the failure does not
propagate to the caller as the claim states. -/
theorem patchRoute_failure_invisible :
    failingReplace (RouterUtil.patchUrl demoRoute (QArg.patch [])
        (QArg.patch []) none) = Except.error "navigation failure" ∧
    RouterUtil.patchRouteRRun failingReplace demoRoute [] []
      = RouterUtil.patchRouteRRun okReplace demoRoute [] [] :=
  ⟨rfl, rfl⟩

/-- C9 (amended): `patchRouteR`/`patchRouteP` compute the target via
`patchUrl` and issue exactly one `replace`/`push` navigation with no
retry; but the navigation result is discarded, so the caller-visible
outcome is independent of whether the router reports a failure. -/
theorem patchRoute_single_navigation :
    (∀ (r : RouteLoc) (q p : StrMap Raw),
      RouterUtil.patchRouteRCalls r q p
        = [⟨RouterUtil.NavKind.replace,
            RouterUtil.patchUrl r (QArg.patch q) (QArg.patch p) none⟩]) ∧
    (∀ (r : RouteLoc) (q p : StrMap Raw),
      RouterUtil.patchRoutePCalls r q p
        = [⟨RouterUtil.NavKind.push,
            RouterUtil.patchUrl r (QArg.patch q) (QArg.patch p) none⟩]) ∧
    (∀ (f g : RouteLoc → Except String Unit) (r : RouteLoc) (q p : StrMap Raw),
      RouterUtil.patchRouteRRun f r q p = RouterUtil.patchRouteRRun g r q p) ∧
    (∀ (f g : RouteLoc → Except String Unit) (r : RouteLoc) (q p : StrMap Raw),
      RouterUtil.patchRoutePRun f r q p = RouterUtil.patchRoutePRun g r q p) :=
  ⟨fun _ _ _ => rfl, fun _ _ _ => rfl, fun _ _ _ _ _ => rfl, fun _ _ _ _ _ => rfl⟩

/-- C7 counterexample: `UrlMirror.add` called with a bare string name and
no value does not fail — it proceeds, creating a fresh `ref(null)` as the
variable to bind (the claim asserts an error is raised here). -/
theorem addEntry_no_failure :
    UrlMirror.addEntrySetup true none = Except.ok (true, some JsVal.vnull) := rfl

/-- C7 (amended): the class-based `UrlMirror.add` treats a bare string
name with no value as the `create` path — no error, a fresh
null-initialized reactive value is bound and returned — while only the
legacy function-form `useUrlMirror` (part_003) fails fast with
`Error('variable must be Ref')`. -/
theorem addEntry_amended :
    UrlMirror.addEntrySetup true none = Except.ok (true, some JsVal.vnull) ∧
    legacyUseUrlMirrorEntry true none = Except.error "variable must be Ref" ∧
    (∀ v : JsVal, UrlMirror.addEntrySetup true (some v) = Except.ok (false, some v)) ∧
    (∀ (b : Bool) (v : JsVal), legacyUseUrlMirrorEntry b (some v) = Except.ok ()) := by
  refine ⟨rfl, rfl, fun v => rfl, fun b v => ?_⟩
  simp [legacyUseUrlMirrorEntry]

/-- C3: evaluating the code at the failing input — binding `@id` (e.g.
`add('@id', ref('v'), 'String')` or a `createObject` property `@id`): the
name is classified by the field string `'param'` with stripped URL key
`id`, but the route object has no `param` property (only `params`,
plural), so the very first `ru.route['param'][key]` read throws a
TypeError and the binding is never established: it issues no URL write at
all, against the claim that its writes update `params` under the stripped
key. -/
theorem paramBinding_setup_throws :
    fieldStringOf "@id" = "param" ∧
    urlKeyOf "@id" = "id" ∧
    routeIndex demoRoute "param" = none ∧
    routeIndex demoRoute "params" = some demoRoute.params ∧
    UrlMirror.addBindingSetup UrlMirror.stringDS "@id" demoRoute (JsVal.vstr "v")
      = Except.error "TypeError" ∧
    UrlMirror.coBindingSetup UrlMirror.stringDS "@id" demoRoute []
      = Except.error "TypeError" :=
  ⟨rfl, rfl, rfl, rfl, rfl, rfl⟩

/-- C4: each built-in serializer format round-trips: `String` on any
string, `Number`/`Float` and `Integer` on any (model) finite number,
`Boolean` on `true` and `false`, and `JSON` on any JSON-serializable
structure (no `undefined`/`NaN`, duplicate-free object keys), with
`deserialize(serialize(v))` value-equal to `v`. -/
theorem builtin_roundtrip :
    (∀ s : String,
      UrlMirror.deserializeString (UrlMirror.serializeString (JsVal.vstr s))
        = JsVal.vstr s) ∧
    (∀ n : Int,
      UrlMirror.deserializeFloat (UrlMirror.serializeNumber (JsVal.vnum n))
        = JsVal.vnum n) ∧
    (∀ n : Int,
      UrlMirror.deserializeInteger (UrlMirror.serializeNumber (JsVal.vnum n))
        = JsVal.vnum n) ∧
    (∀ b : Bool,
      UrlMirror.deserializeBoolean (UrlMirror.serializeBoolean (JsVal.vbool b))
        = JsVal.vbool b) ∧
    (∀ v : JsVal, isSerializable v = true →
      UrlMirror.jsonDeserialize (UrlMirror.jsonSerialize v) = some v) := by
  refine ⟨fun s => rfl, fun n => ?_, fun n => ?_, fun b => ?_, fun v h => jsonRound v h⟩
  · show jsParseFloat (intToString n) = JsVal.vnum n
    exact jsParseInt_intToString n
  · show jsParseInt (intToString n) = JsVal.vnum n
    exact jsParseInt_intToString n
  · cases b <;> rfl

/-- A sample JSON-serializable structure for evaluating the round-trip. -/
def demoJson : JsVal :=
  JsVal.vobj [("a", JsVal.varr [JsVal.vnum 1, JsVal.vstr "x"]),
    ("b", JsVal.vbool false)]

/-- C4 witness: the round-trip law evaluated at concrete values of each
format's domain, discharging the JSON serializability hypothesis at a
nested object. -/
theorem builtin_roundtrip_witness :
    isSerializable demoJson = true ∧
    UrlMirror.jsonDeserialize (UrlMirror.jsonSerialize demoJson) = some demoJson ∧
    UrlMirror.deserializeString (UrlMirror.serializeString (JsVal.vstr "hi"))
      = JsVal.vstr "hi" ∧
    UrlMirror.deserializeFloat (UrlMirror.serializeNumber (JsVal.vnum 12))
      = JsVal.vnum 12 ∧
    UrlMirror.deserializeInteger (UrlMirror.serializeNumber (JsVal.vnum (-7)))
      = JsVal.vnum (-7) ∧
    UrlMirror.deserializeBoolean (UrlMirror.serializeBoolean (JsVal.vbool true))
      = JsVal.vbool true :=
  ⟨by decide, builtin_roundtrip.2.2.2.2 demoJson (by decide),
   builtin_roundtrip.1 "hi", builtin_roundtrip.2.1 12,
   builtin_roundtrip.2.2.1 (-7), builtin_roundtrip.2.2.2.1 true⟩

/-- C5 counterexample: after buffering `("info","a")` and registering
callback `1`, the buffer is NOT cleared (still holds the flushed message),
and registering callback `2` afterwards delivers the already-flushed
message a second time — contradicting the claim's "then clears the buffer
… does not deliver any already-flushed message again". -/
theorem registerAdd_no_clear :
    (Flash.registerAdd (Flash.add (Flash.initState Nat) "info" "a") 1).buffer
      = [("info", "a")] ∧
    (Flash.registerAdd
        (Flash.registerAdd (Flash.add (Flash.initState Nat) "info" "a") 1) 2).delivered
      = [(1, "info", "a"), (2, "info", "a")] :=
  ⟨rfl, rfl⟩

/-- C5 (amended): `registerAdd` sets the delivery callback and
synchronously flushes every buffered message to it in original insertion
order, but does not clear the buffer — so a second registration replaces
the callback and delivers every still-buffered (already-flushed) message
again. -/
theorem registerAdd_flush_behaviour :
    ∀ (κ : Type) (s : FlashState κ) (cb : κ),
      (Flash.registerAdd s cb).addCallback = some cb ∧
      (Flash.registerAdd s cb).delivered
        = s.delivered ++ s.buffer.map (fun tm => (cb, tm.1, tm.2)) ∧
      (Flash.registerAdd s cb).buffer = s.buffer := by
  intro κ s cb
  rw [Flash.registerAdd_spec]
  exact ⟨rfl, rfl, rfl⟩

/-- C6: all messages added before any delivery callback is registered are
delivered, on registration, to the callback in exactly their insertion
order — no reordering, no deduplication. -/
theorem flash_fifo_order :
    ∀ (κ : Type) (cb : κ) (msgs : List (String × String)),
      (Flash.registerAdd (Flash.addAll (Flash.initState κ) msgs) cb).delivered
        = msgs.map (fun tm => (cb, tm.1, tm.2)) := by
  intro κ cb msgs
  rw [show Flash.addAll (Flash.initState κ) msgs
      = Flash.addAll ⟨none, [], []⟩ msgs from rfl]
  rw [Flash.addAll_none, Flash.registerAdd_spec]
  simp
